import Mathlib

/-!
Shallow embedding of the winding-tree-server repository: the user model,
the SQL-backed user repository, the signed-cookie session store, and the
three HTTP handlers of `internal/apiserver/server.go`
(`handleUsersCreate`, `handleSessionsCreate`, `AuthenticationUser`,
`getMyUserInfo`, `respondWithError`), plus the repository caching of
`sqlstore.Store.User()`.
-/

namespace WindingTree

/-! ## User entity (package `model`) -/

/-- The user record, from the spec's data model (`id`, `email`, plaintext
`password`, `encrypted_password`). The `model.User` struct itself is not
under `src/`; its shape is fixed by the spec and by the fields the handlers
in `server.go` access (`ID`, `Email`, `Password`, `EncryptedPassword`). -/
structure User where
  id : Nat
  email : String
  password : String
  encryptedPassword : String
deriving DecidableEq, Repr

/-- Modelled from the spec: the Credential Hasher's `Hash(plaintext) -> digest`
(bcrypt in the real code, which is not under `src/`). Modelled as a keyed
injection with a non-empty marker so the digest is never equal to the
plaintext and verification is exact. -/
def hashPassword (p : String) : String :=
  "bcrypt$" ++ p

/-- Modelled from the spec: the Credential Hasher's
`Verify(digest, plaintext) -> bool`, true iff the hash-compare succeeds. -/
def verifyPassword (digest p : String) : Bool :=
  digest == hashPassword p

/-- Modelled from the spec: email-address syntax check used by `Validate`
(the validator of package `model` is not under `src/`): exactly one
at-sign, with a non-empty local part before it and a non-empty domain
after it. -/
def validEmail (e : String) : Bool :=
  e.data.count '@' == 1 && e.data.head? != some '@' && e.data.getLast? != some '@'

/-- Modelled from the spec: `Validate(user) -> error|nil` (package `model`,
not under `src/`). Required: non-empty email matching email syntax; if
`encrypted_password` is empty, `password` must be non-empty and at least 6
characters. `true` models a nil error. -/
def User.Validate (u : User) : Bool :=
  validEmail u.email &&
    (u.encryptedPassword != "" || (u.password != "" && u.password.length ≥ 6))

/-- Modelled from the spec: `BeforeCreate(user)` (package `model`, not under
`src/`): if `password` is non-empty, compute and store `encrypted_password`
from it. -/
def User.BeforeCreate (u : User) : User :=
  if u.password != "" then
    { u with encryptedPassword := hashPassword u.password }
  else u

/-- Modelled from the spec: `Sanitize(user)` (package `model`, not under
`src/`): clears `password` to empty. -/
def User.Sanitize (u : User) : User :=
  { u with password := "" }

/-- Modelled from the spec: `ComparePasswords(user, candidate) -> bool`
(package `model`, not under `src/`): true iff the hash-compare of
`encrypted_password` and the candidate succeeds. -/
def User.ComparePasswords (u : User) (candidate : String) : Bool :=
  verifyPassword u.encryptedPassword candidate

/-! ## User repository (package `sqlstore`, rows of the `users` table)

Only the `store.UserRepository` interface (Create / Find / FindByEmail) is
under `src/`; the SQL implementation is modelled from the spec's §4.3
contract. A store is the list of persisted rows plus the next id the
database would assign. Only the three columns id, email,
encrypted_password are persisted (plaintext `password` is never persisted). -/

structure Store where
  users : List User
  nextId : Nat
deriving DecidableEq, Repr

inductive CreateError
  | validationError
  | conflictError
deriving DecidableEq, Repr

inductive FindError
  | notFoundError
deriving DecidableEq, Repr

/-- Modelled from the spec: `Create(user) -> error`: runs validation and
password derivation, inserts a row (email uniqueness enforced by the
store's constraint), populates `id` on success. Returns the user as the
handler sees it after the call together with the new store state. -/
def Store.Create (st : Store) (u : User) : Except CreateError (User × Store) :=
  if !u.Validate then
    .error .validationError
  else if st.users.any (fun r => r.email == u.BeforeCreate.email) then
    .error .conflictError
  else
    .ok ({ u.BeforeCreate with id := st.nextId },
      { users := st.users ++
          [{ id := st.nextId
             email := u.BeforeCreate.email
             password := ""
             encryptedPassword := u.BeforeCreate.encryptedPassword }]
        nextId := st.nextId + 1 })

/-- Modelled from the spec: `FindByID(id) -> user, error`; `NotFoundError`
if no row matches. -/
def Store.Find (st : Store) (id : Nat) : Except FindError User :=
  match st.users.find? (fun r => r.id == id) with
  | some u => .ok u
  | none => .error .notFoundError

/-- Modelled from the spec: `FindByEmail(email) -> user, error`;
`NotFoundError` if no row matches. -/
def Store.FindByEmail (st : Store) (email : String) : Except FindError User :=
  match st.users.find? (fun r => r.email == email) with
  | some u => .ok u
  | none => .error .notFoundError

/-- The spec's data-model invariant: every persisted user has a non-empty
unique email and a non-empty `encrypted_password`. -/
def StoreInv (st : Store) : Prop :=
  st.users.Pairwise (fun a b => a.email ≠ b.email) ∧
  ∀ u ∈ st.users, u.email ≠ "" ∧ u.encryptedPassword ≠ ""

/-! ## Session cookie store

The process holds a symmetric-key cookie session store
(`cookie.NewStore([]byte(config.SessionKey))` in `apiserver.go`); the
cookie codec itself is the external `gorilla` library. Modelled from the
spec's Session Manager contract (§4.4): the token is a byte string holding
the serialized session values followed by a symmetric-key authentication
tag; an invalid tag resolves to `NotAuthenticated` (here: no session
values, hence no `user_id`). The idealized tag is the key followed by a
copy of the payload, which is tamper-evident byte for byte. -/

/-- Serialize the session values (a string-keyed map of numeric values; this
server only ever stores the numeric `user_id`) into payload bytes: each
pair as key length, key character codes, value. -/
def serializeValues : List (String × Nat) → List Nat
  | [] => []
  | (k, v) :: tail => k.length :: (k.data.map Char.toNat ++ v :: serializeValues tail)

/-- Parse payload bytes back into session values; `none` on malformed
payloads. Structural recursion on a fuel bound (the list length shrinks by
at least one pair per step). -/
def deserializeValuesAux : Nat → List Nat → Option (List (String × Nat))
  | _, [] => some []
  | 0, _ :: _ => none
  | fuel + 1, len :: rest =>
    if len + 1 ≤ rest.length then
      match deserializeValuesAux fuel (rest.drop (len + 1)) with
      | some tail =>
          some ((String.mk ((rest.take len).map Char.ofNat), rest.getD len 0) :: tail)
      | none => none
    else none

/-- Parse payload bytes back into session values; `none` on malformed
payloads. -/
def deserializeValues (l : List Nat) : Option (List (String × Nat)) :=
  deserializeValuesAux l.length l

/-- The symmetric-key authentication tag over a payload. -/
def mac (key payload : List Nat) : List Nat :=
  key ++ payload

/-- Sign and encode session values into a cookie token. -/
def encodeCookie (key : List Nat) (vals : List (String × Nat)) : List Nat :=
  serializeValues vals ++ mac key (serializeValues vals)

/-- Check the tag of a token and extract its payload bytes; `none` when the
tag does not verify. -/
def decodeToken (key : List Nat) (t : List Nat) : Option (List Nat) :=
  if key.length ≤ t.length ∧ (t.length - key.length) % 2 = 0 then
    if t.drop ((t.length - key.length) / 2) =
        mac key (t.take ((t.length - key.length) / 2)) then
      some (t.take ((t.length - key.length) / 2))
    else none
  else none

/-- Verify and decode a cookie token into session values. -/
def decodeCookie (key : List Nat) (t : List Nat) : Option (List (String × Nat)) :=
  (decodeToken key t).bind deserializeValues

/-! ## HTTP layer (package `apiserver`, `server.go`) -/

/-- The parts of an inbound request the handlers consult: the session
cookie named `go` (if any, as raw token bytes) and whether the session
store fails while reading the request's session (the spec's internal
store failure; `sessionStore.Get` returning a non-nil error). -/
structure Request where
  cookie : Option (List Nat)
  storeFails : Bool
deriving DecidableEq, Repr

/-- `sessionStore.Get(c.Request, "go")`: on a store failure a non-nil
error; otherwise the session's values — decoded from the request's cookie
when one is present and its signature verifies, and a fresh empty session
otherwise (an invalid signature resolves to no session values, per the
spec's Session Manager contract). -/
def sessionGet (key : List Nat) (req : Request) : Except Unit (List (String × Nat)) :=
  if req.storeFails then .error () else
    match req.cookie with
    | none => .ok []
    | some t =>
      match decodeCookie key t with
      | some vals => .ok vals
      | none => .ok []

/-- `session.Values[k] = v` on a string-keyed map: replace or add. -/
def setValue (vals : List (String × Nat)) (k : String) (v : Nat) : List (String × Nat) :=
  match vals with
  | [] => [(k, v)]
  | (k', v') :: rest => if k' == k then (k, v) :: rest else (k', v') :: setValue rest k v

/-- A response body: empty (200 with no body), the error object
`respondWithError` writes, the email/encrypted_password object of
`handleUsersCreate`, or the full user JSON of `getMyUserInfo`. -/
inductive RespBody
  | empty
  | errObj (msg : String)
  | emailAndHash (email encryptedPassword : String)
  | userJson (u : User)
deriving DecidableEq, Repr

structure HttpResponse where
  status : Nat
  body : RespBody
  setCookie : Option (List Nat)
deriving DecidableEq, Repr

/-- How a handler invocation ends: a written response; a nil-pointer
dereference (the Go code panics, caught by gin's Recovery); or, for a body
that fails to parse, gin v1.4.0's `BindJSON` (`MustBindWith`) aborting with
a bare HTTP status via `AbortWithError` — the status is written to the
client immediately — after which the handler's remaining code still runs
and dereferences the nil user pointer (panic; the client keeps the written
status). -/
inductive Outcome
  | resp (r : HttpResponse)
  | nilPanic
  | bindAbortThenNilPanic (status : Nat)
deriving DecidableEq, Repr

/-- `respondWithError(c, code, message)`: abort with the JSON error object. -/
def respondWithError (code : Nat) (message : String) : Outcome :=
  .resp { status := code, body := .errObj message, setCookie := none }

/-- The error message strings of `server.go`. -/
def errIncorrectEmailOrPassword : String := "incorrect email or password"

def errInternalServerError : String := "internal server error"

def errNotAuthenticated : String := "not authenticated"

def errBadRequest : String := "bad request"

/-- `handleUsersCreate`: `c.BindJSON(&u)` with its error result ignored.
`none` models a body that fails to parse: gin v1.4.0's `BindJSON` is
`MustBindWith`, which aborts with a bare HTTP 400 (`AbortWithError`) on the
parse failure; the handler then continues with the `*model.User` pointer
still nil, and `store.User().Create(u)` dereferences it (panic), so the
store is unchanged. On a parsed body: `Create`, mapping any error to 400
bad request, else `u.Sanitize()` and a 200 JSON object with the email and
encrypted_password fields. -/
def handleUsersCreate (st : Store) (body : Option User) : Outcome × Store :=
  match body with
  | none => (.bindAbortThenNilPanic 400, st)
  | some u =>
    match st.Create u with
    | .error _ => (respondWithError 400 errBadRequest, st)
    | .ok (u', st') =>
      let us := u'.Sanitize
      (.resp { status := 200, body := .emailAndHash us.email us.encryptedPassword
               setCookie := none }, st')

/-- `handleSessionsCreate`: `c.BindJSON(&req)` with its error result
ignored. `none` models a body that fails to parse: gin v1.4.0's `BindJSON`
(`MustBindWith`) aborts with a bare HTTP 400 on the parse failure, then the
handler continues and `req.Email` dereferences the nil pointer (panic). On
a parsed body: `FindByEmail` failure or a failed password compare give
401; a session-store failure gives 500; otherwise `user_id` is set in the
session's values and the saved session becomes the response cookie, 200
with no body. -/
def handleSessionsCreate (st : Store) (key : List Nat) (req : Request)
    (body : Option User) : Outcome :=
  match body with
  | none => .bindAbortThenNilPanic 400
  | some r =>
    match st.FindByEmail r.email with
    | .error _ => respondWithError 401 errIncorrectEmailOrPassword
    | .ok u =>
      if !u.ComparePasswords r.password then
        respondWithError 401 errIncorrectEmailOrPassword
      else
        match sessionGet key req with
        | .error _ => respondWithError 500 errInternalServerError
        | .ok vals =>
          .resp { status := 200, body := .empty
                  setCookie := some (encodeCookie key (setValue vals "user_id" u.id)) }

/-! ## Authentication middleware and the protected handler -/

/-- A value stored in the per-request gin context: the authenticated user
set by the middleware, or a string (the request id set by
`SetRequestID`). -/
inductive CtxVal
  | user (u : User)
  | str (s : String)
deriving DecidableEq, Repr

/-- The per-request context bag, string-keyed (`c.Set` / `c.Value`). -/
def Ctx := List (String × CtxVal)

def ctxSet (ctx : Ctx) (k : String) (v : CtxVal) : Ctx :=
  (k, v) :: ctx

def ctxGet (ctx : Ctx) (k : String) : Option CtxVal :=
  (ctx : List (String × CtxVal)).lookup k

/-- The middleware either aborts with an error response or proceeds to the
next handler with the enriched context. -/
inductive AuthStep
  | abort (o : Outcome)
  | proceed (ctx : Ctx)

/-- `AuthenticationUser()`: session read failure gives 500; a session with
no `user_id` value gives 401; a failed `Find` on the id gives 401; else the
user is stored under `"ctxKeyUser"` and the chain continues (`c.Next()`). -/
def AuthenticationUser (st : Store) (key : List Nat) (req : Request) (ctx : Ctx) : AuthStep :=
  match sessionGet key req with
  | .error _ => .abort (respondWithError 500 errInternalServerError)
  | .ok vals =>
    match vals.lookup "user_id" with
    | none => .abort (respondWithError 401 errNotAuthenticated)
    | some id =>
      match st.Find id with
      | .error _ => .abort (respondWithError 401 errNotAuthenticated)
      | .ok u => .proceed (ctxSet ctx "ctxKeyUser" (.user u))

/-- `getMyUserInfo`: serialize `c.Value("ctxKeyUser").(*model.User)`; the
type assertion panics when the key is absent or holds a non-user value. -/
def getMyUserInfo (ctx : Ctx) : Outcome :=
  match ctxGet ctx "ctxKeyUser" with
  | some (.user u) => .resp { status := 200, body := .userJson u, setCookie := none }
  | _ => .nilPanic

/-- The `GET /private/whoami` pipeline: the request-id middleware populates
the context, then `AuthenticationUser`, then `getMyUserInfo`. -/
def whoamiEndpoint (st : Store) (key : List Nat) (requestId : String) (req : Request) : Outcome :=
  let ctx0 := ctxSet [] "ctxKeyRequestID" (.str requestId)
  match AuthenticationUser st key req ctx0 with
  | .abort o => o
  | .proceed ctx => getMyUserInfo ctx

/-! ## `sqlstore.Store.User()` repository caching -/

/-- The repository value `sqlstore.Store.User()` hands out, identified by
the database handle it is bound to (`UserRepository{store: s}`). -/
structure UserRepositoryRef where
  store : Nat
deriving DecidableEq, Repr

/-- `sqlstore.Store`: the database handle plus the lazily allocated
repository field (`userRepository`, nil until first use). -/
structure SqlStore where
  db : Nat
  userRepository : Option UserRepositoryRef
deriving DecidableEq, Repr

/-- `sqlstore.New(db)`: fresh store with no repository allocated yet. -/
def SqlStore.New (db : Nat) : SqlStore :=
  { db := db, userRepository := none }

/-- `sqlstore.Store.User()`: return the cached repository when present;
otherwise allocate one bound to this store, cache and return it. -/
def SqlStore.User (s : SqlStore) : UserRepositoryRef × SqlStore :=
  match s.userRepository with
  | some r => (r, s)
  | none =>
    let r : UserRepositoryRef := { store := s.db }
    (r, { s with userRepository := some r })

/-! ### Codec round-trip and tamper lemmas -/

theorem deserializeValuesAux_serializeValues (vals : List (String × Nat)) :
    ∀ fuel, (serializeValues vals).length ≤ fuel →
      deserializeValuesAux fuel (serializeValues vals) = some vals := by
  induction vals with
  | nil => intro fuel _; cases fuel <;> rfl
  | cons kv tail ih =>
    obtain ⟨k, v⟩ := kv
    intro fuel hfuel
    rw [serializeValues] at hfuel ⊢
    cases fuel with
    | zero => simp at hfuel
    | succ fuel =>
      have hklen : (k.data.map Char.toNat).length = k.length := by
        rw [List.length_map]
        rfl
      have hrest : k.length + 1 ≤ (k.data.map Char.toNat ++ v :: serializeValues tail).length := by
        rw [List.length_append, hklen, List.length_cons]
        omega
      rw [deserializeValuesAux, if_pos hrest]
      have hassoc : k.data.map Char.toNat ++ v :: serializeValues tail =
          (k.data.map Char.toNat ++ [v]) ++ serializeValues tail := by
        simp
      have hdrop : (k.data.map Char.toNat ++ v :: serializeValues tail).drop (k.length + 1) =
          serializeValues tail := by
        rw [hassoc, List.drop_left']
        simp [hklen]
      have hfuel' : (serializeValues tail).length ≤ fuel := by
        rw [List.length_cons, List.length_append, hklen, List.length_cons] at hfuel
        omega
      rw [hdrop, ih fuel hfuel']
      have htake : (k.data.map Char.toNat ++ v :: serializeValues tail).take k.length =
          k.data.map Char.toNat := List.take_left' hklen
      have hgetD : (k.data.map Char.toNat ++ v :: serializeValues tail).getD k.length 0 = v := by
        rw [List.getD_eq_getElem?_getD, List.getElem?_append_right (le_of_eq hklen), hklen]
        simp
      rw [htake, hgetD]
      have hkey : String.mk ((k.data.map Char.toNat).map Char.ofNat) = k := by
        rw [List.map_map]
        have : (Char.ofNat ∘ Char.toNat) = id := by
          funext c
          exact Char.ofNat_toNat c
        rw [this, List.map_id]
      rw [hkey]

theorem deserializeValues_serializeValues (vals : List (String × Nat)) :
    deserializeValues (serializeValues vals) = some vals :=
  deserializeValuesAux_serializeValues vals _ le_rfl

theorem decodeToken_encode (key p : List Nat) :
    decodeToken key (p ++ mac key p) = some p := by
  have hlen : (p ++ mac key p).length = 2 * p.length + key.length := by
    simp [mac]; omega
  have hcond : key.length ≤ (p ++ mac key p).length ∧
      ((p ++ mac key p).length - key.length) % 2 = 0 := by
    constructor <;> omega
  have hdiv : ((p ++ mac key p).length - key.length) / 2 = p.length := by
    omega
  rw [decodeToken, if_pos hcond, hdiv, List.take_left, List.drop_left, if_pos rfl]

theorem decodeCookie_encodeCookie (key : List Nat) (vals : List (String × Nat)) :
    decodeCookie key (encodeCookie key vals) = some vals := by
  rw [decodeCookie, encodeCookie, decodeToken_encode]
  exact deserializeValues_serializeValues vals

/-- Setting an index at or beyond the taken region leaves the taken region
unchanged. -/
theorem take_set_of_le {α : Type} (a : α) {n m : Nat} (l : List α) (h : m ≤ n) :
    (l.set n a).take m = l.take m := by
  apply List.ext_getElem?
  intro j
  rw [List.getElem?_take, List.getElem?_take]
  split
  · next hj => rw [List.getElem?_set_ne (by omega)]
  · rfl

/-- Tamper evidence of the idealized signed token: overwriting any single
byte of a well-formed token with a different value makes the signature
check fail. -/
theorem decodeToken_tamper (key p : List Nat) (i b : Nat)
    (hi : i < (p ++ mac key p).length)
    (hb : b ≠ (p ++ mac key p).getD i 0) :
    decodeToken key ((p ++ mac key p).set i b) = none := by
  have hlen : (p ++ mac key p).length = 2 * p.length + key.length := by
    simp [mac]; omega
  have hlen' : ((p ++ mac key p).set i b).length = (p ++ mac key p).length :=
    List.length_set ..
  have hcond : key.length ≤ ((p ++ mac key p).set i b).length ∧
      (((p ++ mac key p).set i b).length - key.length) % 2 = 0 := by
    rw [hlen']
    constructor <;> omega
  have hdiv : (((p ++ mac key p).set i b).length - key.length) / 2 = p.length := by
    rw [hlen']
    omega
  rw [decodeToken, if_pos hcond, hdiv]
  rw [if_neg]
  intro hEq
  by_cases hcase : i < p.length
  · have hdrop : ((p ++ mac key p).set i b).drop p.length = mac key p := by
      rw [List.drop_set_of_lt _ _ hcase, List.drop_left]
    rw [hdrop, mac, mac] at hEq
    have hpay : p = ((p ++ mac key p).set i b).take p.length :=
      List.append_cancel_left hEq
    have hleft : p[i]? = some b := by
      rw [hpay, List.getElem?_take, if_pos hcase, List.getElem?_set_self (by omega)]
    have hti : (p ++ mac key p)[i]? = some b := by
      rw [List.getElem?_append_left hcase, hleft]
    apply hb
    rw [List.getD_eq_getElem?_getD, hti]
    rfl
  · have htake : ((p ++ mac key p).set i b).take p.length = p := by
      rw [take_set_of_le _ _ (by omega), List.take_left]
    have hdrop : ((p ++ mac key p).set i b).drop p.length =
        (mac key p).set (i - p.length) b := by
      rw [List.drop_set, if_neg (by omega), List.drop_left]
    rw [htake, hdrop] at hEq
    have hib : i - p.length < (mac key p).length := by
      simp only [mac, List.length_append] at hlen ⊢
      omega
    have hleft : ((mac key p).set (i - p.length) b)[i - p.length]? = some b :=
      List.getElem?_set_self (by omega)
    rw [hEq] at hleft
    have hti : (p ++ mac key p)[i]? = some b := by
      rw [List.getElem?_append_right (by omega)]
      exact hleft
    apply hb
    rw [List.getD_eq_getElem?_getD, hti]
    rfl

/-! ## Helper lemmas about the user model and the repository -/

theorem User.BeforeCreate_email (u : User) : u.BeforeCreate.email = u.email := by
  rw [User.BeforeCreate]
  split <;> rfl

theorem User.BeforeCreate_password (u : User) : u.BeforeCreate.password = u.password := by
  rw [User.BeforeCreate]
  split <;> rfl

theorem User.Sanitize_password (u : User) : u.Sanitize.password = "" := rfl

theorem User.Sanitize_email (u : User) : u.Sanitize.email = u.email := rfl

theorem User.Sanitize_encryptedPassword (u : User) :
    u.Sanitize.encryptedPassword = u.encryptedPassword := rfl

theorem hashPassword_ne_empty (p : String) : hashPassword p ≠ "" := by
  intro h
  have hl := congrArg String.length h
  rw [hashPassword, String.length_append] at hl
  have h7 : ("bcrypt$" : String).length = 7 := rfl
  have h0 : ("" : String).length = 0 := rfl
  omega

theorem validEmail_ne_empty {e : String} (h : validEmail e = true) : e ≠ "" := by
  intro he
  subst he
  exact absurd h (by decide)

/-- A validated user gets a non-empty `encrypted_password` from
`BeforeCreate`: either the plaintext is hashed, or validation already
required a non-empty `encrypted_password`. -/
theorem Validate_BeforeCreate_encryptedPassword_ne {u : User}
    (h : u.Validate = true) : u.BeforeCreate.encryptedPassword ≠ "" := by
  rw [User.BeforeCreate]
  split
  · exact hashPassword_ne_empty u.password
  · next hpw =>
    rw [User.Validate, Bool.and_eq_true, Bool.or_eq_true] at h
    rcases h.2 with henc | hrest
    · simpa using henc
    · rw [Bool.and_eq_true] at hrest
      exact absurd hrest.1 (by simpa using hpw)

theorem Validate_validEmail {u : User} (h : u.Validate = true) :
    validEmail u.email = true := by
  rw [User.Validate, Bool.and_eq_true] at h
  exact h.1

/-- The shape of a successful `Create`: validation passed, no existing row
has the email, the returned user is the hashed user with the assigned id,
and the store gained exactly the persisted row. -/
theorem Store.Create_ok {st : Store} {u u' : User} {st' : Store}
    (h : st.Create u = .ok (u', st')) :
    u.Validate = true ∧
    st.users.any (fun r => r.email == u.BeforeCreate.email) = false ∧
    u' = { u.BeforeCreate with id := st.nextId } ∧
    st' = { users := st.users ++
              [{ id := st.nextId
                 email := u.BeforeCreate.email
                 password := ""
                 encryptedPassword := u.BeforeCreate.encryptedPassword }]
            nextId := st.nextId + 1 } := by
  rw [Store.Create] at h
  split at h
  · exact absurd h (by simp)
  · next hval =>
    split at h
    · exact absurd h (by simp)
    · next hconf =>
      simp only [Except.ok.injEq, Prod.mk.injEq] at h
      refine ⟨?_, ?_, h.1.symm, h.2.symm⟩
      · simpa using hval
      · simpa using hconf

/-- A successful `Create` evaluates to the success branch. -/
theorem Store.Create_eq_ok {st : Store} {u : User}
    (hval : u.Validate = true)
    (hconf : st.users.any (fun r => r.email == u.BeforeCreate.email) = false) :
    st.Create u = .ok ({ u.BeforeCreate with id := st.nextId },
      { users := st.users ++
          [{ id := st.nextId
             email := u.BeforeCreate.email
             password := ""
             encryptedPassword := u.BeforeCreate.encryptedPassword }]
        nextId := st.nextId + 1 }) := by
  rw [Store.Create, if_neg (by simp [hval]), if_neg (by simp [hconf])]

/-! ## Claim theorems -/

/-- C5: POST /users result mapping: for every request body, if
`Repository.Create` returns an error the response is 400 with the
bad-request error object and the store is unchanged; if `Create` succeeds
the response is 200 with a JSON body containing exactly the fields
`email` and `encrypted_password`. -/
theorem handleUsersCreate_result_mapping (st : Store) (u : User) :
    (∀ e : CreateError, st.Create u = .error e →
      handleUsersCreate st (some u) = (respondWithError 400 errBadRequest, st)) ∧
    (∀ (u' : User) (st' : Store), st.Create u = .ok (u', st') →
      handleUsersCreate st (some u) =
        (.resp { status := 200
                 body := .emailAndHash u'.email u'.encryptedPassword
                 setCookie := none }, st')) := by
  constructor
  · intro e he
    simp only [handleUsersCreate, he]
  · intro u' st' hok
    simp only [handleUsersCreate, hok]
    rfl

theorem handleUsersCreate_result_mapping_witness :
    handleUsersCreate ⟨[], 1⟩ (some ⟨0, "", "", ""⟩) =
      (respondWithError 400 errBadRequest, ⟨[], 1⟩) ∧
    handleUsersCreate ⟨[], 1⟩ (some ⟨0, "user@example.test", "password", ""⟩) =
      (.resp { status := 200
               body := .emailAndHash "user@example.test" "bcrypt$password"
               setCookie := none },
       ⟨[⟨1, "user@example.test", "", "bcrypt$password"⟩], 2⟩) :=
  ⟨(handleUsersCreate_result_mapping ⟨[], 1⟩ ⟨0, "", "", ""⟩).1 .validationError (by rfl),
   (handleUsersCreate_result_mapping ⟨[], 1⟩ ⟨0, "user@example.test", "password", ""⟩).2
     ⟨1, "user@example.test", "password", "bcrypt$password"⟩
     ⟨[⟨1, "user@example.test", "", "bcrypt$password"⟩], 2⟩ (by rfl)⟩

/-- C8 counterexample: the claim "malformed request bodies are not
rejected — no branch returns 400 for a malformed JSON body" is false at a
concrete malformed body: gin v1.4.0's `BindJSON` (`MustBindWith`) aborts
with HTTP 400 on the parse failure before either handler's nil
dereference, so the client is rejected with a 400 status. -/
theorem bindjson_malformed_writes_400 :
    handleUsersCreate ⟨[], 1⟩ none = (.bindAbortThenNilPanic 400, ⟨[], 1⟩) ∧
    handleSessionsCreate ⟨[], 1⟩ [9] ⟨none, false⟩ none = .bindAbortThenNilPanic 400 :=
  ⟨rfl, rfl⟩

/-- C8 (amended): both handlers ignore the error result of `BindJSON`, but
in gin v1.4.0 `BindJSON` is `MustBindWith`, which itself aborts a request
whose body fails to parse with a bare HTTP 400 before the handler's
remaining code runs; the user pointer stays nil and the subsequent field
accesses and `Create` call still execute on it unguarded (a nil-pointer
panic after the 400 is written); the handlers' own code contributes no
bad-request error object for a malformed body, and the store is unchanged. -/
theorem handlers_bind_abort_on_malformed_body (st : Store) (key : List Nat) (req : Request) :
    handleUsersCreate st none = (.bindAbortThenNilPanic 400, st) ∧
    handleSessionsCreate st key req none = .bindAbortThenNilPanic 400 ∧
    handleUsersCreate st none ≠ (respondWithError 400 errBadRequest, st) ∧
    handleSessionsCreate st key req none ≠ respondWithError 400 errBadRequest :=
  ⟨rfl, rfl, by simp [handleUsersCreate, respondWithError],
   by simp [handleSessionsCreate, respondWithError]⟩

/-- C10: `sqlstore.Store.User()` is idempotent: on a fresh store the first
call allocates a repository bound to the store and caches it, and on any
store a subsequent call returns exactly the repository the previous call
returned, with the store state unchanged. -/
theorem store_user_idempotent :
    (∀ db : Nat, (SqlStore.New db).userRepository = none ∧
      (SqlStore.New db).User =
        ({ store := db }, { db := db, userRepository := some { store := db } })) ∧
    (∀ s : SqlStore, s.User.2.User = (s.User.1, s.User.2)) := by
  refine ⟨fun db => ⟨rfl, rfl⟩, fun s => ?_⟩
  match s with
  | ⟨db, none⟩ => rfl
  | ⟨db, some r⟩ => rfl

/-- C4: POST /sessions behaviour: if no user with the request's email
exists, or the password comparison fails, the response is 401 with the
incorrect-email-or-password error object; otherwise (for a fresh login
request, with the session store reachable) a session whose sole payload
field `user_id` equals the found user's id is saved as the response
cookie and the response is 200 with no body. -/
theorem handleSessionsCreate_behaviour (st : Store) (key : List Nat) (req : Request) (r : User) :
    (∀ e : FindError, st.FindByEmail r.email = .error e →
      handleSessionsCreate st key req (some r) =
        respondWithError 401 errIncorrectEmailOrPassword) ∧
    (∀ u : User, st.FindByEmail r.email = .ok u → u.ComparePasswords r.password = false →
      handleSessionsCreate st key req (some r) =
        respondWithError 401 errIncorrectEmailOrPassword) ∧
    (∀ u : User, st.FindByEmail r.email = .ok u → u.ComparePasswords r.password = true →
      req.storeFails = false → req.cookie = none →
      handleSessionsCreate st key req (some r) =
        .resp { status := 200, body := .empty
                setCookie := some (encodeCookie key [("user_id", u.id)]) }) := by
  refine ⟨fun e he => ?_, fun u hu hc => ?_, fun u hu hc hsf hck => ?_⟩
  · simp only [handleSessionsCreate, he]
  · simp only [handleSessionsCreate, hu, hc, Bool.not_false, if_true]
  · have hget : sessionGet key req = .ok [] := by
      rw [sessionGet, hsf, hck]
      rfl
    simp only [handleSessionsCreate, hu, hc, Bool.not_true, if_false, hget]
    rfl

theorem handleSessionsCreate_behaviour_witness :
    handleSessionsCreate ⟨[⟨1, "a@b", "", hashPassword "secret1"⟩], 2⟩ [9] ⟨none, false⟩
        (some ⟨0, "x@y", "secret1", ""⟩) =
      respondWithError 401 errIncorrectEmailOrPassword ∧
    handleSessionsCreate ⟨[⟨1, "a@b", "", hashPassword "secret1"⟩], 2⟩ [9] ⟨none, false⟩
        (some ⟨0, "a@b", "wrong", ""⟩) =
      respondWithError 401 errIncorrectEmailOrPassword ∧
    handleSessionsCreate ⟨[⟨1, "a@b", "", hashPassword "secret1"⟩], 2⟩ [9] ⟨none, false⟩
        (some ⟨0, "a@b", "secret1", ""⟩) =
      .resp { status := 200, body := .empty
              setCookie := some (encodeCookie [9] [("user_id", 1)]) } :=
  ⟨(handleSessionsCreate_behaviour ⟨[⟨1, "a@b", "", hashPassword "secret1"⟩], 2⟩ [9]
      ⟨none, false⟩ ⟨0, "x@y", "secret1", ""⟩).1 .notFoundError (by rfl),
   (handleSessionsCreate_behaviour ⟨[⟨1, "a@b", "", hashPassword "secret1"⟩], 2⟩ [9]
      ⟨none, false⟩ ⟨0, "a@b", "wrong", ""⟩).2.1 ⟨1, "a@b", "", hashPassword "secret1"⟩
      (by rfl) (by rfl),
   (handleSessionsCreate_behaviour ⟨[⟨1, "a@b", "", hashPassword "secret1"⟩], 2⟩ [9]
      ⟨none, false⟩ ⟨0, "a@b", "secret1", ""⟩).2.2 ⟨1, "a@b", "", hashPassword "secret1"⟩
      (by rfl) (by rfl) (by rfl) (by rfl)⟩

/-- C3: on GET /private/whoami, a session-store failure gives 500 with the
internal-server-error object; a session carrying no `user_id`, or a failed
user lookup, gives 401 with the not-authenticated object; in every such
case the protected handler's success body is not produced. -/
theorem whoami_error_paths (st : Store) (key : List Nat) (rid : String) (req : Request) :
    (req.storeFails = true →
      whoamiEndpoint st key rid req = respondWithError 500 errInternalServerError) ∧
    (∀ vals, sessionGet key req = .ok vals → vals.lookup "user_id" = none →
      whoamiEndpoint st key rid req = respondWithError 401 errNotAuthenticated) ∧
    (∀ vals id e, sessionGet key req = .ok vals → vals.lookup "user_id" = some id →
      st.Find id = .error e →
      whoamiEndpoint st key rid req = respondWithError 401 errNotAuthenticated) := by
  refine ⟨fun hsf => ?_, fun vals hvals hlk => ?_, fun vals id e hvals hlk hfind => ?_⟩
  · have hget : sessionGet key req = .error () := by
      rw [sessionGet, hsf]
      rfl
    simp only [whoamiEndpoint, AuthenticationUser, hget]
  · simp only [whoamiEndpoint, AuthenticationUser, hvals, hlk]
  · simp only [whoamiEndpoint, AuthenticationUser, hvals, hlk, hfind]

theorem whoami_error_paths_witness :
    whoamiEndpoint ⟨[], 1⟩ [9] "rid" ⟨none, true⟩ =
      respondWithError 500 errInternalServerError ∧
    whoamiEndpoint ⟨[], 1⟩ [9] "rid" ⟨none, false⟩ =
      respondWithError 401 errNotAuthenticated ∧
    whoamiEndpoint ⟨[], 1⟩ [9] "rid" ⟨some (encodeCookie [9] [("user_id", 7)]), false⟩ =
      respondWithError 401 errNotAuthenticated :=
  ⟨(whoami_error_paths ⟨[], 1⟩ [9] "rid" ⟨none, true⟩).1 rfl,
   (whoami_error_paths ⟨[], 1⟩ [9] "rid" ⟨none, false⟩).2.1 [] (by rfl) (by rfl),
   (whoami_error_paths ⟨[], 1⟩ [9] "rid"
      ⟨some (encodeCookie [9] [("user_id", 7)]), false⟩).2.2 [("user_id", 7)] 7
      .notFoundError (by rw [sessionGet]; simp [decodeCookie_encodeCookie])
      (by rfl) (by rfl)⟩

/-- C9: whenever `getMyUserInfo` executes, `AuthenticationUser` has stored
a user under the context key `ctxKeyUser` (it aborts before `Next()` on
every failure path), so the pipeline never hits the failed type-assertion
panic, and a success body is only produced for a user the session's
`user_id` resolves to in the repository. -/
theorem whoami_never_panics (st : Store) (key : List Nat) (rid : String) (req : Request) :
    whoamiEndpoint st key rid req ≠ .nilPanic ∧
    (∀ u : User, whoamiEndpoint st key rid req =
        .resp { status := 200, body := .userJson u, setCookie := none } →
      ∃ vals id, sessionGet key req = .ok vals ∧ vals.lookup "user_id" = some id ∧
        st.Find id = .ok u) := by
  rw [whoamiEndpoint]
  cases hget : sessionGet key req with
  | error e =>
    simp only [AuthenticationUser, hget]
    exact ⟨by simp [respondWithError], fun u h => by simp [respondWithError] at h⟩
  | ok vals =>
    cases hlk : vals.lookup "user_id" with
    | none =>
      simp only [AuthenticationUser, hget, hlk]
      exact ⟨by simp [respondWithError], fun u h => by simp [respondWithError] at h⟩
    | some id =>
      cases hfind : st.Find id with
      | error e =>
        simp only [AuthenticationUser, hget, hlk, hfind]
        exact ⟨by simp [respondWithError], fun u h => by simp [respondWithError] at h⟩
      | ok u =>
        simp only [AuthenticationUser, hget, hlk, hfind, getMyUserInfo, ctxGet, ctxSet,
          List.lookup_cons_self]
        refine ⟨by simp, fun v h => ⟨vals, id, rfl, hlk, ?_⟩⟩
        simp only [Outcome.resp.injEq, HttpResponse.mk.injEq, RespBody.userJson.injEq,
          true_and, and_true] at h
        rw [hfind, h]

theorem whoami_never_panics_witness :
    whoamiEndpoint ⟨[⟨1, "a@b", "", hashPassword "secret1"⟩], 2⟩ [9] "rid"
      ⟨some (encodeCookie [9] [("user_id", 1)]), false⟩ ≠ .nilPanic :=
  (whoami_never_panics ⟨[⟨1, "a@b", "", hashPassword "secret1"⟩], 2⟩ [9] "rid"
    ⟨some (encodeCookie [9] [("user_id", 1)]), false⟩).1

/-- C1: session round-trip: for a stored user found by email whose
password compares, POST /sessions issues a cookie encoding that user's
id, a subsequent GET /private/whoami presenting that cookie resolves to
the same user's record with 200, and a request with no session cookie
gets 401 with the not-authenticated error object. -/
theorem session_roundtrip (st : Store) (key : List Nat) (rid : String)
    (login u : User)
    (hfind : st.FindByEmail login.email = .ok u)
    (hcmp : u.ComparePasswords login.password = true)
    (hid : st.Find u.id = .ok u) :
    handleSessionsCreate st key ⟨none, false⟩ (some login) =
      .resp { status := 200, body := .empty
              setCookie := some (encodeCookie key [("user_id", u.id)]) } ∧
    whoamiEndpoint st key rid ⟨some (encodeCookie key [("user_id", u.id)]), false⟩ =
      .resp { status := 200, body := .userJson u, setCookie := none } ∧
    whoamiEndpoint st key rid ⟨none, false⟩ =
      respondWithError 401 errNotAuthenticated := by
  refine ⟨?_, ?_, rfl⟩
  · have hget : sessionGet key ⟨none, false⟩ = .ok [] := rfl
    simp only [handleSessionsCreate, hfind, hcmp, Bool.not_true, if_false, hget]
    rfl
  · have hget : sessionGet key ⟨some (encodeCookie key [("user_id", u.id)]), false⟩ =
        .ok [("user_id", u.id)] := by
      rw [sessionGet]
      simp [decodeCookie_encodeCookie]
    simp only [whoamiEndpoint, AuthenticationUser, hget, List.lookup_cons_self, hid,
      getMyUserInfo, ctxGet, ctxSet, List.lookup_cons_self]

theorem session_roundtrip_witness :
    handleSessionsCreate ⟨[⟨1, "a@b", "", hashPassword "secret1"⟩], 2⟩ [9] ⟨none, false⟩
        (some ⟨0, "a@b", "secret1", ""⟩) =
      .resp { status := 200, body := .empty
              setCookie := some (encodeCookie [9] [("user_id", 1)]) } ∧
    whoamiEndpoint ⟨[⟨1, "a@b", "", hashPassword "secret1"⟩], 2⟩ [9] "rid"
        ⟨some (encodeCookie [9] [("user_id", 1)]), false⟩ =
      .resp { status := 200, body := .userJson ⟨1, "a@b", "", hashPassword "secret1"⟩
              setCookie := none } ∧
    whoamiEndpoint ⟨[⟨1, "a@b", "", hashPassword "secret1"⟩], 2⟩ [9] "rid" ⟨none, false⟩ =
      respondWithError 401 errNotAuthenticated :=
  session_roundtrip ⟨[⟨1, "a@b", "", hashPassword "secret1"⟩], 2⟩ [9] "rid"
    ⟨0, "a@b", "secret1", ""⟩ ⟨1, "a@b", "", hashPassword "secret1"⟩
    (by rfl) (by rfl) (by rfl)

/-- C2: tamper evidence: overwriting any one byte of a server-issued
session cookie with a different value makes GET /private/whoami answer
401 not-authenticated: the altered signature never resolves to a user
identity. -/
theorem cookie_tamper_unauthenticated (st : Store) (key : List Nat) (rid : String)
    (vals : List (String × Nat)) (i b : Nat)
    (hi : i < (encodeCookie key vals).length)
    (hb : b ≠ (encodeCookie key vals).getD i 0) :
    whoamiEndpoint st key rid
      ⟨some ((encodeCookie key vals).set i b), false⟩ =
      respondWithError 401 errNotAuthenticated := by
  have hdec : decodeToken key ((encodeCookie key vals).set i b) = none :=
    decodeToken_tamper key (serializeValues vals) i b hi hb
  have hck : decodeCookie key ((encodeCookie key vals).set i b) = none := by
    rw [decodeCookie, hdec]
    rfl
  have hget : sessionGet key ⟨some ((encodeCookie key vals).set i b), false⟩ = .ok [] := by
    rw [sessionGet]
    simp [hck]
  simp only [whoamiEndpoint, AuthenticationUser, hget]
  rfl

theorem cookie_tamper_unauthenticated_witness :
    (0 < (encodeCookie [9] [("user_id", 1)]).length ∧
      (encodeCookie [9] [("user_id", 1)]).getD 0 0 + 1 ≠
        (encodeCookie [9] [("user_id", 1)]).getD 0 0) ∧
    whoamiEndpoint ⟨[⟨1, "a@b", "", hashPassword "secret1"⟩], 2⟩ [9] "rid"
      ⟨some ((encodeCookie [9] [("user_id", 1)]).set 0
        ((encodeCookie [9] [("user_id", 1)]).getD 0 0 + 1)), false⟩ =
      respondWithError 401 errNotAuthenticated :=
  ⟨⟨by decide, by decide⟩,
   cookie_tamper_unauthenticated ⟨[⟨1, "a@b", "", hashPassword "secret1"⟩], 2⟩ [9] "rid"
     [("user_id", 1)] 0 ((encodeCookie [9] [("user_id", 1)]).getD 0 0 + 1)
     (by decide) (by decide)⟩

/-- C6: sanitization before serialization: on every successful POST /users
the record is sanitized (plaintext password cleared) before serialization,
the response body carries only email and encrypted_password, and the
stored row has a non-empty encrypted_password and no plaintext password. -/
theorem sanitize_before_serialization (st st' : Store) (u u' : User)
    (h : st.Create u = .ok (u', st')) :
    handleUsersCreate st (some u) =
      (.resp { status := 200
               body := .emailAndHash u'.Sanitize.email u'.Sanitize.encryptedPassword
               setCookie := none }, st') ∧
    u'.Sanitize.password = "" ∧
    u'.encryptedPassword ≠ "" ∧
    ∃ row ∈ st'.users, row.email = u.email ∧ row.password = "" ∧
      row.encryptedPassword ≠ "" := by
  obtain ⟨hval, hconf, hu', hst'⟩ := Store.Create_ok h
  refine ⟨?_, rfl, ?_, ?_⟩
  · simp only [handleUsersCreate, h]
  · rw [hu']
    exact Validate_BeforeCreate_encryptedPassword_ne hval
  · refine ⟨{ id := st.nextId
              email := u.BeforeCreate.email
              password := ""
              encryptedPassword := u.BeforeCreate.encryptedPassword }, ?_, ?_, rfl, ?_⟩
    · rw [hst']
      simp
    · exact User.BeforeCreate_email u
    · exact Validate_BeforeCreate_encryptedPassword_ne hval

theorem sanitize_before_serialization_witness :
    handleUsersCreate ⟨[], 1⟩ (some ⟨0, "user@example.test", "password", ""⟩) =
      (.resp { status := 200
               body := .emailAndHash
                 (User.Sanitize ⟨1, "user@example.test", "password", "bcrypt$password"⟩).email
                 (User.Sanitize ⟨1, "user@example.test", "password",
                   "bcrypt$password"⟩).encryptedPassword
               setCookie := none },
       ⟨[⟨1, "user@example.test", "", "bcrypt$password"⟩], 2⟩) ∧
    (User.Sanitize ⟨1, "user@example.test", "password", "bcrypt$password"⟩).password = "" ∧
    (⟨1, "user@example.test", "password", "bcrypt$password"⟩ : User).encryptedPassword ≠ "" ∧
    ∃ row ∈ (⟨[⟨1, "user@example.test", "", "bcrypt$password"⟩], 2⟩ : Store).users,
      row.email = "user@example.test" ∧ row.password = "" ∧ row.encryptedPassword ≠ "" :=
  sanitize_before_serialization ⟨[], 1⟩ ⟨[⟨1, "user@example.test", "", "bcrypt$password"⟩], 2⟩
    ⟨0, "user@example.test", "password", ""⟩
    ⟨1, "user@example.test", "password", "bcrypt$password"⟩ (by rfl)

/-- C7: email uniqueness: a successful creation preserves the invariant
that every persisted user has a non-empty unique email and non-empty
encrypted_password, and registering the same email twice returns 200 on
the first attempt and 400 on the second, leaving exactly one stored user
with that email. -/
theorem email_uniqueness_register_twice (st st1 : Store) (u u1 v : User)
    (hok : st.Create u = .ok (u1, st1)) (hv : v.email = u.email) :
    (StoreInv st → StoreInv st1) ∧
    handleUsersCreate st (some u) =
      (.resp { status := 200
               body := .emailAndHash u1.email u1.encryptedPassword
               setCookie := none }, st1) ∧
    handleUsersCreate st1 (some v) = (respondWithError 400 errBadRequest, st1) ∧
    st1.users.countP (fun r => r.email == u.email) = 1 := by
  obtain ⟨hval, hconf, hu1, hst1⟩ := Store.Create_ok hok
  have hBCu : u.BeforeCreate.email = u.email := User.BeforeCreate_email u
  have hconf' : ∀ r ∈ st.users, (r.email == u.email) = false := by
    intro r hr
    have := List.any_eq_false.mp (by exact hconf) r hr
    rw [hBCu] at this
    simpa using this
  refine ⟨?_, ?_, ?_, ?_⟩
  · rintro ⟨hpw, hprops⟩
    rw [hst1]
    constructor
    · rw [List.pairwise_append]
      refine ⟨hpw, by simp, ?_⟩
      intro a ha b hb
      rw [List.mem_singleton] at hb
      subst hb
      have := hconf' a ha
      simp only [beq_eq_false_iff_ne, ne_eq] at this
      simpa [hBCu] using this
    · intro w hw
      rw [List.mem_append] at hw
      rcases hw with hw | hw
      · exact hprops w hw
      · rw [List.mem_singleton] at hw
        subst hw
        refine ⟨?_, Validate_BeforeCreate_encryptedPassword_ne hval⟩
        show u.BeforeCreate.email ≠ ""
        rw [hBCu]
        exact validEmail_ne_empty (Validate_validEmail hval)
  · simp only [handleUsersCreate, hok]
    rfl
  · have hrow : ∃ r ∈ st1.users, (r.email == v.BeforeCreate.email) = true := by
      refine ⟨{ id := st.nextId
                email := u.BeforeCreate.email
                password := ""
                encryptedPassword := u.BeforeCreate.encryptedPassword }, ?_, ?_⟩
      · rw [hst1]
        simp
      · show (u.BeforeCreate.email == v.BeforeCreate.email) = true
        rw [hBCu, User.BeforeCreate_email v, hv]
        simp
    cases hvv : v.Validate with
    | false =>
      have hcr : st1.Create v = .error .validationError := by
        rw [Store.Create, if_pos (by simp [hvv])]
      simp only [handleUsersCreate, hcr]
    | true =>
      have hany : st1.users.any (fun r => r.email == v.BeforeCreate.email) = true :=
        List.any_eq_true.mpr hrow
      have hcr : st1.Create v = .error .conflictError := by
        rw [Store.Create, if_neg (by simp [hvv]), if_pos hany]
      simp only [handleUsersCreate, hcr]
  · rw [hst1]
    simp only [List.countP_append]
    have h0 : st.users.countP (fun r => r.email == u.email) = 0 := by
      rw [List.countP_eq_zero]
      intro r hr
      simp [hconf' r hr]
    rw [h0]
    simp [List.countP_cons, hBCu]

theorem email_uniqueness_register_twice_witness :
    (StoreInv ⟨[], 1⟩ → StoreInv ⟨[⟨1, "user@example.test", "", "bcrypt$password"⟩], 2⟩) ∧
    handleUsersCreate ⟨[], 1⟩ (some ⟨0, "user@example.test", "password", ""⟩) =
      (.resp { status := 200
               body := .emailAndHash "user@example.test" "bcrypt$password"
               setCookie := none },
       ⟨[⟨1, "user@example.test", "", "bcrypt$password"⟩], 2⟩) ∧
    handleUsersCreate ⟨[⟨1, "user@example.test", "", "bcrypt$password"⟩], 2⟩
        (some ⟨0, "user@example.test", "password", ""⟩) =
      (respondWithError 400 errBadRequest,
       ⟨[⟨1, "user@example.test", "", "bcrypt$password"⟩], 2⟩) ∧
    (⟨[⟨1, "user@example.test", "", "bcrypt$password"⟩], 2⟩ : Store).users.countP
      (fun r => r.email == "user@example.test") = 1 :=
  email_uniqueness_register_twice ⟨[], 1⟩
    ⟨[⟨1, "user@example.test", "", "bcrypt$password"⟩], 2⟩
    ⟨0, "user@example.test", "password", ""⟩
    ⟨1, "user@example.test", "password", "bcrypt$password"⟩
    ⟨0, "user@example.test", "password", ""⟩ (by rfl) (by rfl)

end WindingTree
